import Mathlib

/-!
Shallow embedding of `src/alloc.rs` from the `redismodule-rs` repository:
a global allocator adapter that delegates allocation, zeroed allocation,
deallocation and reallocation to the Redis host via four optional function
pointers, aborting the process when a required pointer is absent.

Machine integers (`usize`) are modelled as `Nat` with explicit reduction
modulo `2 ^ w`, where `w` is the native word width (64 on the usual
targets); host function pointers are modelled as optional pure functions,
raw pointers as `Nat` (0 is the null pointer), and the observable behaviour
of each adapter operation as an `Outcome`: either a normal return carrying
the list of host calls issued, the raw writes to standard error, and the
returned value, or an abnormal process abort carrying the same traces.
-/

namespace RedisRs

/-- Rust `core::alloc::Layout`: a size and an alignment, both `usize`. -/
structure Layout where
  size : Nat
  align : Nat
deriving DecidableEq

/-- Bitwise NOT on a `w`-bit unsigned word (Rust `!x` on `usize`). -/
def usizeNot (w x : Nat) : Nat := (2 ^ w - 1) ^^^ x

/-- `calculate_size` from `src/alloc.rs`:
`(layout.size() + layout.align() - 1) & (!(layout.align() - 1))`,
with the `usize` addition wrapping modulo `2 ^ w`. -/
def calculate_size (w : Nat) (layout : Layout) : Nat :=
  ((layout.size + layout.align - 1) % 2 ^ w) &&& usizeNot w (layout.align - 1)

/-- The fixed diagnostic from `src/alloc.rs` (the `\x27` escape is the
ASCII apostrophe). -/
def REDIS_ALLOCATOR_NOT_AVAILABLE_MESSAGE : String :=
  "Critical error: the Redis Allocator isn\x27t available.\n"

/-- One invocation of a host capability, with its argument values:
`RedisModule_Alloc(size)`, `RedisModule_Calloc(count, size)`,
`RedisModule_Free(ptr)`, `RedisModule_Realloc(ptr, size)`. -/
inductive HostCall where
  | allocCall (size : Nat)
  | callocCall (count size : Nat)
  | freeCall (ptr : Nat)
  | reallocCall (ptr size : Nat)
deriving DecidableEq

/-- Observable behaviour of one adapter operation: `ret` is a normal
return (host calls issued, raw writes to the standard-error file
descriptor, returned value); `abort` is abnormal process termination
(`std::process::abort`), after which nothing is returned and no further
user code runs. -/
inductive Outcome (α : Type) where
  | ret (hostCalls : List HostCall) (stderrWrites : List String) (v : α)
  | abort (hostCalls : List HostCall) (stderrWrites : List String)

/-- `allocation_free_panic` from `src/alloc.rs`: one raw best-effort
write of `message` to the standard-error file descriptor, then
`std::process::abort()`; it never returns a value and issues no host
call. -/
def allocation_free_panic {α : Type} (message : String) : Outcome α :=
  Outcome.abort [] [message]

/-- The capability table populated by the host: the four optional
function pointers from `crate::raw` that `src/alloc.rs` dispatches on. -/
structure CapabilityTable where
  RedisModule_Alloc : Option (Nat → Nat)
  RedisModule_Calloc : Option (Nat → Nat → Nat)
  RedisModule_Free : Option (Nat → Unit)
  RedisModule_Realloc : Option (Nat → Nat → Nat)

/-- `pub struct RedisAlloc;` — a field-less (zero-sized) type. -/
structure RedisAlloc where
deriving DecidableEq

/-- `RedisAlloc::alloc` from `src/alloc.rs`. -/
def RedisAlloc.alloc (w : Nat) (_self : RedisAlloc) (t : CapabilityTable)
    (layout : Layout) : Outcome Nat :=
  let size := calculate_size w layout
  match t.RedisModule_Alloc with
  | some alloc => Outcome.ret [HostCall.allocCall size] [] (alloc size)
  | none => allocation_free_panic REDIS_ALLOCATOR_NOT_AVAILABLE_MESSAGE

/-- `RedisAlloc::alloc_zeroed` from `src/alloc.rs`. -/
def RedisAlloc.alloc_zeroed (w : Nat) (_self : RedisAlloc) (t : CapabilityTable)
    (layout : Layout) : Outcome Nat :=
  let size := calculate_size w layout
  match t.RedisModule_Calloc with
  | some calloc => Outcome.ret [HostCall.callocCall 1 size] [] (calloc 1 size)
  | none => allocation_free_panic REDIS_ALLOCATOR_NOT_AVAILABLE_MESSAGE

/-- `RedisAlloc::dealloc` from `src/alloc.rs`; the layout parameter is
received but never read (`_layout`). -/
def RedisAlloc.dealloc (_self : RedisAlloc) (t : CapabilityTable)
    (ptr : Nat) (_layout : Layout) : Outcome Unit :=
  match t.RedisModule_Free with
  | some f => Outcome.ret [HostCall.freeCall ptr] [] (f ptr)
  | none => allocation_free_panic REDIS_ALLOCATOR_NOT_AVAILABLE_MESSAGE

/-- `RedisAlloc::realloc` from `src/alloc.rs`: builds
`Layout::from_size_align_unchecked(new_size, layout.align())` and passes
its `calculate_size` to the host together with the pointer. -/
def RedisAlloc.realloc (w : Nat) (_self : RedisAlloc) (t : CapabilityTable)
    (ptr : Nat) (layout : Layout) (new_size : Nat) : Outcome Nat :=
  match t.RedisModule_Realloc with
  | some realloc =>
      let new_layout : Layout := ⟨new_size, layout.align⟩
      let size := calculate_size w new_layout
      Outcome.ret [HostCall.reallocCall ptr size] [] (realloc ptr size)
  | none => allocation_free_panic REDIS_ALLOCATOR_NOT_AVAILABLE_MESSAGE

/-- Sample host allocate function used by concrete witnesses. -/
def hostAllocFn : Nat → Nat := fun size => size + 4096

/-- Sample host calloc function used by concrete witnesses. -/
def hostCallocFn : Nat → Nat → Nat := fun _count _size => 8192

/-- Sample host free function used by concrete witnesses. -/
def hostFreeFn : Nat → Unit := fun _ptr => ()

/-- Sample host realloc function used by concrete witnesses. -/
def hostReallocFn : Nat → Nat → Nat := fun ptr _size => ptr

/-- A capability table with all four host capabilities present. -/
def tableFull : CapabilityTable :=
  ⟨some hostAllocFn, some hostCallocFn, some hostFreeFn, some hostReallocFn⟩

/-- A capability table with no host capability present. -/
def tableEmpty : CapabilityTable := ⟨none, none, none, none⟩

/-- Masking a `w`-bit value with the complement of `2 ^ k - 1` clears its
low `k` bits, i.e. rounds it down to a multiple of `2 ^ k`. -/
lemma land_usizeNot_pow (w k x : Nat) (hk : k ≤ w) (hx : x < 2 ^ w) :
    x &&& usizeNot w (2 ^ k - 1) = 2 ^ k * (x / 2 ^ k) := by
  have hrhs : 2 ^ k * (x / 2 ^ k) = (x >>> k) <<< k := by
    rw [Nat.shiftRight_eq_div_pow, Nat.shiftLeft_eq, Nat.mul_comm]
  rw [hrhs]
  apply Nat.eq_of_testBit_eq
  intro i
  rw [usizeNot, Nat.testBit_land, Nat.testBit_xor, Nat.testBit_two_pow_sub_one,
    Nat.testBit_two_pow_sub_one, Nat.testBit_shiftLeft, Nat.testBit_shiftRight]
  by_cases hik : i < k
  · have h1 : ¬ i ≥ k := by omega
    have h2 : i < w := by omega
    simp [hik, h1, h2]
  · have hik' : i ≥ k := by omega
    have hsum : k + (i - k) = i := by omega
    by_cases hiw : i < w
    · simp [hik, hik', hiw, hsum]
    · have hxb : x.testBit i = false := by
        apply Nat.testBit_lt_two_pow
        calc x < 2 ^ w := hx
          _ ≤ 2 ^ i := Nat.pow_le_pow_right (by omega) (by omega)
      simp [hik, hik', hiw, hsum, hxb]

/-- When `size + align - 1` does not overflow and `align = 2 ^ k`,
`calculate_size` is the round-up `2 ^ k * ⌈(size + 2 ^ k - 1) / 2 ^ k⌉`
in its truncated-division form. -/
lemma calculate_size_pow_eq (w k size : Nat) (hk : k ≤ w)
    (hov : size + 2 ^ k - 1 < 2 ^ w) :
    calculate_size w ⟨size, 2 ^ k⟩ = 2 ^ k * ((size + 2 ^ k - 1) / 2 ^ k) := by
  unfold calculate_size
  dsimp only
  rw [Nat.mod_eq_of_lt hov]
  exact land_usizeNot_pow w k _ hk hov

/-- C1: for every `size` and every power-of-two alignment `2 ^ k` that fit
the native word, if `size + 2 ^ k - 1` does not overflow then
`calculate_size` returns a multiple `A` of the alignment with
`size ≤ A < size + 2 ^ k`, i.e. the smallest multiple of the alignment
that is at least `size`. -/
theorem calculate_size_rounds_up (w k size : Nat) (hk : k ≤ w)
    (hov : size + 2 ^ k - 1 < 2 ^ w) :
    calculate_size w ⟨size, 2 ^ k⟩ % 2 ^ k = 0 ∧
    size ≤ calculate_size w ⟨size, 2 ^ k⟩ ∧
    calculate_size w ⟨size, 2 ^ k⟩ < size + 2 ^ k := by
  rw [calculate_size_pow_eq w k size hk hov]
  have hpos : 0 < 2 ^ k := Nat.pos_pow_of_pos k (by omega)
  refine ⟨Nat.mul_mod_right _ _, ?_, ?_⟩
  · have h1 := Nat.div_add_mod (size + 2 ^ k - 1) (2 ^ k)
    have h2 := Nat.mod_lt (size + 2 ^ k - 1) hpos
    omega
  · have h1 := Nat.div_add_mod (size + 2 ^ k - 1) (2 ^ k)
    omega

/-- C1 witness: the bounds at the concrete input size 5, alignment 8,
64-bit words. -/
theorem calculate_size_rounds_up_witness :
    (3 ≤ 64 ∧ 5 + 2 ^ 3 - 1 < 2 ^ 64) ∧
    (calculate_size 64 ⟨5, 2 ^ 3⟩ % 2 ^ 3 = 0 ∧
     5 ≤ calculate_size 64 ⟨5, 2 ^ 3⟩ ∧
     calculate_size 64 ⟨5, 2 ^ 3⟩ < 5 + 2 ^ 3) :=
  ⟨⟨by decide, by decide⟩, calculate_size_rounds_up 64 3 5 (by decide) (by decide)⟩

/-- C8: `calculate_size` is idempotent on aligned inputs — when `size` is
already a multiple of the power-of-two alignment it is returned
unchanged — and with alignment 1 every representable `size` is returned
unchanged. -/
theorem calculate_size_idempotent (w k size : Nat) (hk : k ≤ w)
    (hs : size < 2 ^ w) (hdvd : 2 ^ k ∣ size) :
    calculate_size w ⟨size, 2 ^ k⟩ = size ∧ calculate_size w ⟨size, 1⟩ = size := by
  have hpos : 0 < 2 ^ k := Nat.pos_pow_of_pos k (by omega)
  constructor
  · obtain ⟨m, hm⟩ := hdvd
    have hov : size + 2 ^ k - 1 < 2 ^ w := by
      rcases Nat.eq_zero_or_pos size with h0 | h0
      · have : 2 ^ k ≤ 2 ^ w := Nat.pow_le_pow_right (by omega) hk
        omega
      · have hdw : 2 ^ k ∣ 2 ^ w - size := by
          exact Nat.dvd_sub' (Nat.pow_dvd_pow 2 hk) ⟨m, hm⟩
        have : 2 ^ k ≤ 2 ^ w - size := Nat.le_of_dvd (by omega) hdw
        omega
    rw [calculate_size_pow_eq w k size hk hov]
    have hrw : size + 2 ^ k - 1 = 2 ^ k * m + (2 ^ k - 1) := by omega
    rw [hrw, Nat.mul_add_div hpos, Nat.div_eq_of_lt (by omega), Nat.add_zero]
    omega
  · have h1 : (1 : Nat) = 2 ^ 0 := rfl
    have hov : size + 2 ^ 0 - 1 < 2 ^ w := by
      have : (2 : Nat) ^ 0 = 1 := rfl
      omega
    rw [h1, calculate_size_pow_eq w 0 size (Nat.zero_le w) hov]
    simp

/-- C8 witness: size 16 with alignment 8 is returned unchanged, as is
size 16 with alignment 1. -/
theorem calculate_size_idempotent_witness :
    (3 ≤ 64 ∧ 16 < 2 ^ 64 ∧ 2 ^ 3 ∣ 16) ∧
    (calculate_size 64 ⟨16, 2 ^ 3⟩ = 16 ∧ calculate_size 64 ⟨16, 1⟩ = 16) :=
  ⟨⟨by decide, by decide, by decide⟩,
   calculate_size_idempotent 64 3 16 (by decide) (by decide) (by decide)⟩

/-- C9: without the no-overflow precondition the rounding bound fails:
the `usize` addition in `calculate_size` wraps modulo `2 ^ w`, and at
size `2 ^ 64 - 1` with alignment 2 the result is 0, strictly smaller
than the requested size; the code has no guard, saturation, or failure
path for this case. -/
theorem calculate_size_overflow_wraps :
    calculate_size 64 ⟨2 ^ 64 - 1, 2⟩ = 0 ∧
    calculate_size 64 ⟨2 ^ 64 - 1, 2⟩ < 2 ^ 64 - 1 := by
  constructor
  · decide
  · decide

/-- C2: when `RedisModule_Alloc` is present, `RedisAlloc::alloc` invokes
it exactly once, with the single argument `calculate_size layout`, and
returns the host result unmodified — in particular a null (0) result is
propagated unchanged, with no retry or fallback. -/
theorem alloc_present_delegates (w : Nat) (self : RedisAlloc)
    (t : CapabilityTable) (f : Nat → Nat) (layout : Layout)
    (h : t.RedisModule_Alloc = some f) :
    RedisAlloc.alloc w self t layout =
      Outcome.ret [HostCall.allocCall (calculate_size w layout)] []
        (f (calculate_size w layout)) := by
  simp [RedisAlloc.alloc, h]

/-- C2 witness: the delegation at a concrete table and layout. -/
theorem alloc_present_delegates_witness :
    tableFull.RedisModule_Alloc = some hostAllocFn ∧
    RedisAlloc.alloc 64 ⟨⟩ tableFull ⟨5, 8⟩ =
      Outcome.ret [HostCall.allocCall (calculate_size 64 ⟨5, 8⟩)] []
        (hostAllocFn (calculate_size 64 ⟨5, 8⟩)) :=
  ⟨rfl, alloc_present_delegates 64 ⟨⟩ tableFull hostAllocFn ⟨5, 8⟩ rfl⟩

/-- C3: when `RedisModule_Alloc` is absent, `RedisAlloc::alloc` never
returns: it writes the fixed diagnostic exactly once and aborts the
process, and no return outcome is possible. -/
theorem alloc_absent_aborts (w : Nat) (self : RedisAlloc)
    (t : CapabilityTable) (layout : Layout)
    (h : t.RedisModule_Alloc = none) :
    RedisAlloc.alloc w self t layout =
      Outcome.abort [] [REDIS_ALLOCATOR_NOT_AVAILABLE_MESSAGE] ∧
    ∀ (calls : List HostCall) (writes : List String) (p : Nat),
      RedisAlloc.alloc w self t layout ≠ Outcome.ret calls writes p := by
  have h1 : RedisAlloc.alloc w self t layout =
      Outcome.abort [] [REDIS_ALLOCATOR_NOT_AVAILABLE_MESSAGE] := by
    simp [RedisAlloc.alloc, allocation_free_panic, h]
  refine ⟨h1, fun calls writes p hc => ?_⟩
  rw [h1] at hc
  exact Outcome.noConfusion hc

/-- C3 witness: the abort outcome at a concrete empty table, and the
impossibility of one concrete return outcome. -/
theorem alloc_absent_aborts_witness :
    tableEmpty.RedisModule_Alloc = none ∧
    RedisAlloc.alloc 64 ⟨⟩ tableEmpty ⟨5, 8⟩ =
      Outcome.abort [] [REDIS_ALLOCATOR_NOT_AVAILABLE_MESSAGE] ∧
    RedisAlloc.alloc 64 ⟨⟩ tableEmpty ⟨5, 8⟩ ≠ Outcome.ret [] [] 0 :=
  ⟨rfl, (alloc_absent_aborts 64 ⟨⟩ tableEmpty ⟨5, 8⟩ rfl).1,
   (alloc_absent_aborts 64 ⟨⟩ tableEmpty ⟨5, 8⟩ rfl).2 [] [] 0⟩

/-- C4: when `RedisModule_Realloc` is present, `RedisAlloc::realloc`
passes the host the size `calculate_size ⟨new_size, layout.align⟩` —
recomputed from the new size and the original alignment — and the
original layout size plays no role in the request. -/
theorem realloc_uses_new_size_old_align (w : Nat) (self : RedisAlloc)
    (t : CapabilityTable) (f : Nat → Nat → Nat) (ptr : Nat)
    (layout : Layout) (new_size : Nat)
    (h : t.RedisModule_Realloc = some f) :
    RedisAlloc.realloc w self t ptr layout new_size =
      Outcome.ret
        [HostCall.reallocCall ptr (calculate_size w ⟨new_size, layout.align⟩)] []
        (f ptr (calculate_size w ⟨new_size, layout.align⟩)) ∧
    ∀ (osize : Nat),
      RedisAlloc.realloc w self t ptr ⟨osize, layout.align⟩ new_size =
        RedisAlloc.realloc w self t ptr layout new_size := by
  constructor
  · simp [RedisAlloc.realloc, h]
  · intro osize
    simp [RedisAlloc.realloc, h]

/-- C4 witness: the host request at a concrete table, with the original
size replaced by another value leaving the request unchanged. -/
theorem realloc_uses_new_size_old_align_witness :
    tableFull.RedisModule_Realloc = some hostReallocFn ∧
    RedisAlloc.realloc 64 ⟨⟩ tableFull 100 ⟨10, 8⟩ 17 =
      Outcome.ret
        [HostCall.reallocCall 100 (calculate_size 64 ⟨17, (⟨10, 8⟩ : Layout).align⟩)] []
        (hostReallocFn 100 (calculate_size 64 ⟨17, (⟨10, 8⟩ : Layout).align⟩)) ∧
    RedisAlloc.realloc 64 ⟨⟩ tableFull 100 ⟨3, (⟨10, 8⟩ : Layout).align⟩ 17 =
      RedisAlloc.realloc 64 ⟨⟩ tableFull 100 ⟨10, 8⟩ 17 :=
  ⟨rfl, (realloc_uses_new_size_old_align 64 ⟨⟩ tableFull hostReallocFn 100 ⟨10, 8⟩ 17 rfl).1,
   (realloc_uses_new_size_old_align 64 ⟨⟩ tableFull hostReallocFn 100 ⟨10, 8⟩ 17 rfl).2 3⟩

/-- C5: when `RedisModule_Calloc` is present, `RedisAlloc::alloc_zeroed`
invokes it with count 1 and element size `calculate_size layout`, and
returns its result; when it is absent the operation takes the abort
path. -/
theorem alloc_zeroed_delegates (w : Nat) (self : RedisAlloc)
    (t : CapabilityTable) (f : Nat → Nat → Nat) (layout : Layout)
    (h : t.RedisModule_Calloc = some f) :
    RedisAlloc.alloc_zeroed w self t layout =
      Outcome.ret [HostCall.callocCall 1 (calculate_size w layout)] []
        (f 1 (calculate_size w layout)) ∧
    ∀ t2 : CapabilityTable, t2.RedisModule_Calloc = none →
      RedisAlloc.alloc_zeroed w self t2 layout =
        Outcome.abort [] [REDIS_ALLOCATOR_NOT_AVAILABLE_MESSAGE] := by
  constructor
  · simp [RedisAlloc.alloc_zeroed, h]
  · intro t2 h2
    simp [RedisAlloc.alloc_zeroed, allocation_free_panic, h2]

/-- C5 witness: both branches at concrete tables and a concrete layout. -/
theorem alloc_zeroed_delegates_witness :
    tableFull.RedisModule_Calloc = some hostCallocFn ∧
    RedisAlloc.alloc_zeroed 64 ⟨⟩ tableFull ⟨5, 8⟩ =
      Outcome.ret [HostCall.callocCall 1 (calculate_size 64 ⟨5, 8⟩)] []
        (hostCallocFn 1 (calculate_size 64 ⟨5, 8⟩)) ∧
    RedisAlloc.alloc_zeroed 64 ⟨⟩ tableEmpty ⟨5, 8⟩ =
      Outcome.abort [] [REDIS_ALLOCATOR_NOT_AVAILABLE_MESSAGE] :=
  ⟨rfl, (alloc_zeroed_delegates 64 ⟨⟩ tableFull hostCallocFn ⟨5, 8⟩ rfl).1,
   (alloc_zeroed_delegates 64 ⟨⟩ tableFull hostCallocFn ⟨5, 8⟩ rfl).2 tableEmpty rfl⟩

/-- C6: on the fatal abort path exactly one write is issued to standard
error, consisting of the exact bytes
`Critical error: the Redis Allocator isn\x27t available.` followed by a
single newline (the message contains exactly one newline and it is the
last character), no host call is made, and the outcome is an abort —
never a return, so no further user code runs. -/
theorem abort_path_diagnostic :
    REDIS_ALLOCATOR_NOT_AVAILABLE_MESSAGE =
      "Critical error: the Redis Allocator isn\x27t available.\n" ∧
    (REDIS_ALLOCATOR_NOT_AVAILABLE_MESSAGE.data.count '\n' = 1 ∧
     REDIS_ALLOCATOR_NOT_AVAILABLE_MESSAGE.data.getLast? = some '\n') ∧
    (allocation_free_panic REDIS_ALLOCATOR_NOT_AVAILABLE_MESSAGE : Outcome Nat) =
      Outcome.abort [] [REDIS_ALLOCATOR_NOT_AVAILABLE_MESSAGE] ∧
    ∀ (calls : List HostCall) (writes : List String) (p : Nat),
      (allocation_free_panic REDIS_ALLOCATOR_NOT_AVAILABLE_MESSAGE : Outcome Nat) ≠
        Outcome.ret calls writes p := by
  refine ⟨rfl, ⟨by decide, by decide⟩, rfl, fun calls writes p hc => ?_⟩
  exact Outcome.noConfusion hc

/-- C7: when `RedisModule_Free` is present, `RedisAlloc::dealloc` makes
the identical host call for any two layouts: the host free function is
invoked with exactly the pointer, and the layout argument has no effect. -/
theorem dealloc_ignores_layout (self : RedisAlloc) (t : CapabilityTable)
    (f : Nat → Unit) (ptr : Nat) (l1 l2 : Layout)
    (h : t.RedisModule_Free = some f) :
    RedisAlloc.dealloc self t ptr l1 = RedisAlloc.dealloc self t ptr l2 ∧
    RedisAlloc.dealloc self t ptr l1 =
      Outcome.ret [HostCall.freeCall ptr] [] (f ptr) := by
  constructor
  · rfl
  · simp [RedisAlloc.dealloc, h]

/-- C7 witness: two distinct layouts at a concrete table produce the
same host call carrying exactly the pointer. -/
theorem dealloc_ignores_layout_witness :
    tableFull.RedisModule_Free = some hostFreeFn ∧
    RedisAlloc.dealloc ⟨⟩ tableFull 100 ⟨5, 8⟩ =
      RedisAlloc.dealloc ⟨⟩ tableFull 100 ⟨32, 16⟩ ∧
    RedisAlloc.dealloc ⟨⟩ tableFull 100 ⟨5, 8⟩ =
      Outcome.ret [HostCall.freeCall 100] [] (hostFreeFn 100) :=
  ⟨rfl, (dealloc_ignores_layout ⟨⟩ tableFull hostFreeFn 100 ⟨5, 8⟩ ⟨32, 16⟩ rfl).1,
   (dealloc_ignores_layout ⟨⟩ tableFull hostFreeFn 100 ⟨5, 8⟩ ⟨32, 16⟩ rfl).2⟩

/-- C10: `RedisAlloc` is field-less, so any two instances are equal and
none of the four operations depends on adapter-owned state: for a fixed
capability table, each operation applied to equal arguments through any
two instances produces the identical outcome, hence identical host
requests. -/
theorem redisAlloc_stateless (w : Nat) (s1 s2 : RedisAlloc)
    (t : CapabilityTable) (layout : Layout) (ptr new_size : Nat) :
    s1 = s2 ∧
    RedisAlloc.alloc w s1 t layout = RedisAlloc.alloc w s2 t layout ∧
    RedisAlloc.alloc_zeroed w s1 t layout = RedisAlloc.alloc_zeroed w s2 t layout ∧
    RedisAlloc.dealloc s1 t ptr layout = RedisAlloc.dealloc s2 t ptr layout ∧
    RedisAlloc.realloc w s1 t ptr layout new_size =
      RedisAlloc.realloc w s2 t ptr layout new_size := by
  cases s1
  cases s2
  exact ⟨rfl, rfl, rfl, rfl, rfl⟩

end RedisRs
